import Mathlib

/-!
# Formal model of the x402check validation core

A shallow embedding, in Lean 4, of the x402 payment-configuration validator:
JSON values and parsing, format detection, normalization, the rule modules,
the validation orchestrator (`validate`), EIP-55 checksum addresses
(`toChecksumAddress`, `validateEvmAddress`), and HTTP config extraction
(`extractConfig`, `check`).

JavaScript semantics are modelled as follows: machine numbers become `Rat`
(JSON numeric literals are exact decimal fractions; IEEE-754 rounding is not
modelled and no claim below depends on it), strings become `String` over
`List Char` (inputs of interest are ASCII), thrown exceptions become `Except`
or `Option`, and `undefined`/absent fields become `Option`.
-/

/-- A parsed JSON value: the untyped tree produced by `JSON.parse`.
Object fields keep insertion order; lookup takes the last binding of a
repeated name, as `JSON.parse` (last-wins) does. -/
inductive Json where
  | null : Json
  | bool (b : Bool) : Json
  | num (q : Rat) : Json
  | str (s : String) : Json
  | arr (elems : List Json) : Json
  | obj (fields : List (String × Json)) : Json

namespace Json

/-- JavaScript truthiness of a JSON value (`null`, `false`, `0` and `""`
are falsy; every object and array is truthy). -/
def truthy : Json → Bool
  | .null => false
  | .bool b => b
  | .num q => q.num != 0
  | .str s => s != ""
  | .arr _ => true
  | .obj _ => true

/-- Strict equality of a JSON value against an integer literal
(`v === n` where `n` is a small integer, exactly representable). -/
def isNumLit (j : Json) (n : Int) : Bool :=
  match j with
  | .num q => q.num == n && q.den == 1
  | _ => false

/-- Field lookup on a JSON object: `obj[key]`, `undefined` (`none`) when
missing or when the value is not an object.  Last binding wins. -/
def get : Json → String → Option Json
  | .obj fields, key => (fields.reverse.find? (fun p => p.1 == key)).map (·.2)
  | _, _ => none

/-- The JavaScript `key in obj` test: key presence regardless of value. -/
def hasKey : Json → String → Bool
  | .obj fields, key => fields.any (fun p => p.1 == key)
  | _, _ => false

/-- `typeof v === 'object' && v !== null && !Array.isArray(v)`. -/
def isRecord : Json → Bool
  | .obj _ => true
  | _ => false

/-- `Array.isArray(v)`. -/
def isArr : Json → Bool
  | .arr _ => true
  | _ => false

/-- Truthiness of `obj[key]` where a missing key (`undefined`) is falsy. -/
def getTruthy (j : Json) (key : String) : Bool :=
  match j.get key with
  | some v => v.truthy
  | none => false

/-- Extract `obj[key]` when it is a string, `none` otherwise. -/
def getStr (j : Json) (key : String) : Option String :=
  match j.get key with
  | some (.str s) => some s
  | _ => none

end Json

/-! ## A JSON parser (the embedding of `JSON.parse`)

Recursive descent over `List Char` with explicit fuel.  The claims below use
the parser as the success/failure oracle of `JSON.parse` plus the resulting
tree; grammar corners that no claim touches (surrogate pairs in `\u` escapes)
are simplified and noted in place. -/

namespace JsonParse

/-- JSON whitespace. -/
def isWs (c : Char) : Bool :=
  c = ' ' || c = '\t' || c = '\n' || c = '\r'

/-- Drop leading JSON whitespace. -/
def skipWs : List Char → List Char
  | [] => []
  | c :: cs => if isWs c then skipWs cs else c :: cs

/-- Numeric value of a hex digit, `none` for other characters. -/
def hexVal (c : Char) : Option Nat :=
  if '0' ≤ c ∧ c ≤ '9' then some (c.toNat - '0'.toNat)
  else if 'a' ≤ c ∧ c ≤ 'f' then some (c.toNat - 'a'.toNat + 10)
  else if 'A' ≤ c ∧ c ≤ 'F' then some (c.toNat - 'A'.toNat + 10)
  else none

/-- Decimal digit test. -/
def isDigit (c : Char) : Bool := '0' ≤ c && c ≤ '9'

/-- Parse a run of decimal digits, returning them and the rest. -/
def takeDigits : List Char → List Char × List Char
  | [] => ([], [])
  | c :: cs =>
    if isDigit c then
      let (ds, rest) := takeDigits cs
      (c :: ds, rest)
    else ([], c :: cs)

/-- Numeric value of a digit run. -/
def digitsToNat : List Char → Nat
  | [] => 0
  | c :: cs => (c.toNat - '0'.toNat) * 10 ^ cs.length + digitsToNat cs

/-- Parse the body of a JSON string literal after the opening quote.
`\u` escapes are decoded as single code points (surrogate-pair joining is
not modelled; no claim touches it). -/
def parseStringBody (fuel : Nat) : List Char → Option (List Char × List Char)
  | [] => none
  | c :: cs =>
    match fuel with
    | 0 => none
    | fuel + 1 =>
      if c = '"' then some ([], cs)
      else if c = '\\' then
        match cs with
        | [] => none
        | e :: cs' =>
          let decoded : Option (Char × List Char) :=
            if e = '"' then some ('"', cs')
            else if e = '\\' then some ('\\', cs')
            else if e = '/' then some ('/', cs')
            else if e = 'b' then some ('\x08', cs')
            else if e = 'f' then some ('\x0c', cs')
            else if e = 'n' then some ('\n', cs')
            else if e = 'r' then some ('\r', cs')
            else if e = 't' then some ('\t', cs')
            else if e = 'u' then
              match cs' with
              | h1 :: h2 :: h3 :: h4 :: cs'' =>
                match hexVal h1, hexVal h2, hexVal h3, hexVal h4 with
                | some a, some b, some c', some d =>
                  some (Char.ofNat (((a * 16 + b) * 16 + c') * 16 + d), cs'')
                | _, _, _, _ => none
              | _ => none
            else none
          match decoded with
          | some (ch, rest) =>
            match parseStringBody fuel rest with
            | some (tail, rem) => some (ch :: tail, rem)
            | none => none
          | none => none
      else if c.toNat < 0x20 then none
      else
        match parseStringBody fuel cs with
        | some (tail, rem) => some (c :: tail, rem)
        | none => none

/-- Parse a JSON number (`-? int frac? exp?`) into an exact rational.
The value is assembled with `mkRat` over integer arithmetic so that it
evaluates by kernel reduction. -/
def parseNumber (input : List Char) : Option (Rat × List Char) :=
  let (sign, afterSign) :=
    match input with
    | '-' :: cs => ((-1 : Int), cs)
    | cs => ((1 : Int), cs)
  let intPart : Option (List Char × List Char) :=
    match afterSign with
    | '0' :: cs => some (['0'], cs)
    | c :: cs =>
      if isDigit c ∧ c ≠ '0' then
        let (ds, rest) := takeDigits cs
        some (c :: ds, rest)
      else none
    | [] => none
  match intPart with
  | none => none
  | some (intDigits, afterInt) =>
    let (fracDigits, afterFrac) :=
      match afterInt with
      | '.' :: cs =>
        let (ds, rest) := takeDigits cs
        (ds, rest)
      | cs => ([], cs)
    -- A '.' with no digits after it is a parse error.
    match afterInt, fracDigits with
    | '.' :: _, [] => none
    | _, _ =>
      let expPart : Option (Int × List Char) :=
        match afterFrac with
        | e :: cs =>
          if e = 'e' ∨ e = 'E' then
            let (esign, cs') : Int × List Char :=
              match cs with
              | '+' :: cs'' => (1, cs'')
              | '-' :: cs'' => (-1, cs'')
              | cs'' => (1, cs'')
            match cs' with
            | d :: _ =>
              if isDigit d then
                let (ds, rest) := takeDigits cs'
                some (esign * (digitsToNat ds : Int), rest)
              else none
            | [] => none
          else some (0, e :: cs)
        | [] => some (0, [])
      match expPart with
      | none => none
      | some (exp10, rest) =>
        let digits : Int := (digitsToNat (intDigits ++ fracDigits) : Int)
        let value : Rat :=
          if exp10 ≥ 0 then
            mkRat (sign * digits * (10 : Int) ^ exp10.toNat) (10 ^ fracDigits.length)
          else
            mkRat (sign * digits) (10 ^ (fracDigits.length + (-exp10).toNat))
        some (value, rest)

mutual

/-- Parse one JSON value (fuel bounds recursion depth; `Json.parse` supplies
enough fuel for any input of the given length). -/
def parseValue : Nat → List Char → Option (Json × List Char)
  | 0, _ => none
  | fuel + 1, input =>
    match skipWs input with
    | [] => none
    | 'n' :: 'u' :: 'l' :: 'l' :: rest => some (.null, rest)
    | 't' :: 'r' :: 'u' :: 'e' :: rest => some (.bool true, rest)
    | 'f' :: 'a' :: 'l' :: 's' :: 'e' :: rest => some (.bool false, rest)
    | '"' :: rest =>
      match parseStringBody rest.length rest with
      | some (cs, rem) => some (.str ⟨cs⟩, rem)
      | none => none
    | '[' :: rest =>
      (match skipWs rest with
       | ']' :: rem => some (.arr [], rem)
       | other => match parseElems fuel other with
                  | some (elems, rem) => some (.arr elems, rem)
                  | none => none)
    | '{' :: rest =>
      (match skipWs rest with
       | '}' :: rem => some (.obj [], rem)
       | other => match parseFields fuel other with
                  | some (fields, rem) => some (.obj fields, rem)
                  | none => none)
    | cs =>
      match parseNumber cs with
      | some (q, rest) => some (.num q, rest)
      | none => none

/-- Parse the comma-separated elements of a non-empty array, consuming the
closing bracket. -/
def parseElems : Nat → List Char → Option (List Json × List Char)
  | 0, _ => none
  | fuel + 1, input =>
    match parseValue fuel input with
    | none => none
    | some (v, rest) =>
      match skipWs rest with
      | ',' :: rest' =>
        (match parseElems fuel rest' with
         | some (vs, rem) => some (v :: vs, rem)
         | none => none)
      | ']' :: rem => some ([v], rem)
      | _ => none

/-- Parse the comma-separated members of a non-empty object, consuming the
closing brace. -/
def parseFields : Nat → List Char → Option (List (String × Json) × List Char)
  | 0, _ => none
  | fuel + 1, input =>
    match skipWs input with
    | '"' :: rest =>
      (match parseStringBody rest.length rest with
       | none => none
       | some (keyChars, afterKey) =>
         match skipWs afterKey with
         | ':' :: afterColon =>
           (match parseValue fuel afterColon with
            | none => none
            | some (v, rest') =>
              match skipWs rest' with
              | ',' :: rest'' =>
                (match parseFields fuel rest'' with
                 | some (fs, rem) => some ((⟨keyChars⟩, v) :: fs, rem)
                 | none => none)
              | '}' :: rem => some ([(⟨keyChars⟩, v)], rem)
              | _ => none)
         | _ => none)
    | _ => none

end

end JsonParse

/-- The embedding of `JSON.parse`: `none` models a thrown `SyntaxError`.
Fuel is the input length plus one, enough for any nesting the input can
spell. -/
def Json.parse (s : String) : Option Json :=
  match JsonParse.parseValue (s.length + 1) s.data with
  | some (v, rest) =>
    if JsonParse.skipWs rest = [] then some v else none
  | none => none


/-! ## Validation data model

`src/types/errors.ts` (error codes and message table) is not under `src/`;
the codes are reconstructed from their uses in the rule modules, and the
message strings — whose exact wording no claim constrains — are modelled as
an opaque-but-concrete table keyed by code. -/

/-- Issue severity. -/
inductive Severity where
  | error
  | warning
deriving DecidableEq, Repr

/-- Machine-readable issue codes (`ErrorCode` enum), as used by the rule
modules under `src/`. -/
inductive ErrorCode where
  | INVALID_JSON
  | NOT_OBJECT
  | UNKNOWN_FORMAT
  | INVALID_VERSION
  | INVALID_ACCEPTS
  | EMPTY_ACCEPTS
  | MISSING_SCHEME
  | MISSING_NETWORK
  | MISSING_AMOUNT
  | MISSING_ASSET
  | MISSING_PAY_TO
  | MISSING_RESOURCE
  | INVALID_URL
  | INVALID_NETWORK_FORMAT
  | UNKNOWN_NETWORK
  | UNKNOWN_ASSET
  | INVALID_AMOUNT
  | ZERO_AMOUNT
  | MISSING_MAX_TIMEOUT
  | INVALID_TIMEOUT
  | LEGACY_FORMAT
  | INVALID_BAZAAR_INFO
  | INVALID_BAZAAR_INFO_INPUT
  | INVALID_BAZAAR_SCHEMA
  | INVALID_OUTPUT_SCHEMA
  | INVALID_OUTPUT_SCHEMA_INPUT
  | MISSING_INPUT_SCHEMA
  | INVALID_EVM_ADDRESS
  | NO_EVM_CHECKSUM
  | BAD_EVM_CHECKSUM
deriving DecidableEq, Repr

/-- `ErrorMessages[code]`: the human-readable message table.  Modelled from
the spec: the table lives in `types/errors.ts`, not under `src/`; no claim
depends on the wording. -/
def ErrorMessages (c : ErrorCode) : String :=
  match c with
  | .INVALID_JSON => "Input is not valid JSON"
  | .NOT_OBJECT => "Input must be a JSON object"
  | .UNKNOWN_FORMAT => "Unrecognized x402 config format"
  | _ => "Validation issue"

/-- A single diagnostic (`ValidationIssue`). -/
structure ValidationIssue where
  code : ErrorCode
  field : String
  message : String
  severity : Severity
  fix : Option String := none
deriving DecidableEq, Repr

/-- The closed format tag (`ConfigFormat`), as detected by
`x402check/src/detection/detect.ts`. -/
inductive ConfigFormat where
  | v2
  | v1
  | flatLegacy
  | unknown
deriving DecidableEq, Repr

/-- One offered payment method after normalization (`AcceptsEntry`).
String-typed fields hold `none` when absent (or not a string) in the
source document; `maxTimeoutSeconds` keeps the raw JSON value because
`validateTimeout` re-checks its runtime type. -/
structure AcceptsEntry where
  scheme : Option String := none
  network : Option String := none
  amount : Option String := none
  asset : Option String := none
  payTo : Option String := none
  maxTimeoutSeconds : Option Json := none

/-- `resource` object of the canonical shape. -/
structure ResourceInfo where
  url : Option String := none

/-- The canonical v2 shape (`NormalizedConfig`).  `extensions` keeps the
raw JSON mapping because the extensions rules re-check its runtime shape. -/
structure NormalizedConfig where
  x402Version : Int
  accepts : List AcceptsEntry
  resource : Option ResourceInfo := none
  extensions : Option Json := none

/-- The result of the validation pipeline (`ValidationResult`). -/
structure ValidationResult where
  valid : Bool
  version : ConfigFormat
  errors : List ValidationIssue
  warnings : List ValidationIssue
  normalized : Option NormalizedConfig

/-- Raw input to the pipeline: a JSON text or an already-parsed value
(`string | object`). -/
inductive RawInput where
  | text (s : String)
  | js (j : Json)

/-- `ParsedInput`: the result of `parseInput`. -/
structure ParsedInput where
  parsed : Option Json
  error : Option ValidationIssue := none

/-- `parseInput` (`types/parse.ts`): parse a string input as JSON, pass an
object input through; a parse failure yields the `INVALID_JSON` issue. -/
def parseInput : RawInput → ParsedInput
  | .text s =>
    match Json.parse s with
    | some parsed => { parsed := some parsed }
    | none =>
      { parsed := none
        error := some
          { code := .INVALID_JSON
            field := "$"
            message := ErrorMessages .INVALID_JSON
            severity := .error } }
  | .js j => { parsed := some j }

/-! ## Detection guards and format detection

`isRecord`, `hasAcceptsArray`, `isV2Config`, `isV1Config` are from
`detection/guards.ts`; `detect` is `x402check/src/detection/detect.ts`
(the variant with the `flat-legacy` branch, which the `validateStructure`
under `src/` consumes). -/

/-- `isRecord` (guards.ts): non-null, non-array object. -/
def isRecord (j : Json) : Bool := j.isRecord

/-- `hasAcceptsArray` (guards.ts): `'accepts' in config && Array.isArray(config.accepts)`. -/
def hasAcceptsArray (j : Json) : Bool :=
  j.hasKey "accepts" &&
    (match j.get "accepts" with
     | some v => v.isArr
     | none => false)

/-- `isV2Config` (guards.ts): record with accepts array and `x402Version === 2`. -/
def isV2Config (j : Json) : Bool :=
  isRecord j && hasAcceptsArray j &&
    (j.hasKey "x402Version" &&
      (match j.get "x402Version" with
       | some v => v.isNumLit 2
       | none => false))

/-- `isV1Config` (guards.ts): record with accepts array and `x402Version === 1`. -/
def isV1Config (j : Json) : Bool :=
  isRecord j && hasAcceptsArray j &&
    (j.hasKey "x402Version" &&
      (match j.get "x402Version" with
       | some v => v.isNumLit 1
       | none => false))

/-- Modelled from the spec: `isFlatLegacyConfig` is referenced by
`detect.ts` but its definition is not under `src/`.  Spec §4.1: the
flat-legacy shape "has direct payment fields (e.g., an address/amount
pair) but no `accepts` array". -/
def isFlatLegacyConfig (j : Json) : Bool :=
  isRecord j && !hasAcceptsArray j &&
    (j.getTruthy "payTo" || j.getTruthy "address") && j.getTruthy "amount"

/-- `detect` (x402check `detection/detect.ts`): ordered shape tests over the
parsed value, first match wins. -/
def detect (input : RawInput) : ConfigFormat :=
  let pi := parseInput input
  match pi.error with
  | some _ => .unknown
  | none =>
    match pi.parsed with
    | some parsed =>
      if isV2Config parsed then .v2
      else if isV1Config parsed then .v1
      else if isFlatLegacyConfig parsed then .flatLegacy
      else .unknown
    | none => .unknown

/-- `StructureResult` (validation/rules/structure.ts). -/
structure StructureResult where
  parsed : Option Json
  format : ConfigFormat
  issues : List ValidationIssue

/-- `validateStructure` (structure.ts): parse, object check, format
detection; any issue is terminal for the pipeline. -/
def validateStructure (input : RawInput) : StructureResult :=
  let pi := parseInput input
  match pi.error with
  | some err => { parsed := none, format := .unknown, issues := [err] }
  | none =>
    match pi.parsed with
    | none => { parsed := none, format := .unknown, issues := [] }
    | some parsed =>
      if !isRecord parsed then
        { parsed := none
          format := .unknown
          issues := [{ code := .NOT_OBJECT
                       field := "$"
                       message := ErrorMessages .NOT_OBJECT
                       severity := .error }] }
      else
        let format := detect (.js parsed)
        { parsed := some parsed
          format
          issues :=
            if format = .unknown then
              [{ code := .UNKNOWN_FORMAT
                 field := "$"
                 message := ErrorMessages .UNKNOWN_FORMAT
                 severity := .error }]
            else [] }

/-! ## Keccak-256 (`crypto/keccak256.ts` over `@noble/hashes`)

The library call `keccak_256` is embedded as the full Keccak-f[1600]
permutation with rate 1088 and the legacy `0x01` domain padding, over `Nat`
lanes reduced mod `2^64`.  The wrapper hex-encodes the 32-byte digest. -/

namespace Keccak

/-- 64-bit mask. -/
def mask64 : Nat := 2 ^ 64 - 1

/-- Rotate a 64-bit lane left by `n` (0 ≤ n < 64). -/
def rotl64 (x n : Nat) : Nat :=
  ((x <<< n) ||| (x >>> (64 - n))) &&& mask64

/-- Lane at position `x + 5y`, zero when out of range. -/
def laneAt (st : List Nat) (i : Nat) : Nat := st.getD i 0

/-- θ step. -/
def theta (st : List Nat) : List Nat :=
  let col := fun x =>
    laneAt st x ^^^ laneAt st (x + 5) ^^^ laneAt st (x + 10) ^^^
      laneAt st (x + 15) ^^^ laneAt st (x + 20)
  let d := fun x => col ((x + 4) % 5) ^^^ rotl64 (col ((x + 1) % 5)) 1
  (List.range 25).map fun i => laneAt st i ^^^ d (i % 5)

/-- Rotation offsets `r[x][y]` of the ρ step. -/
def rotOff (x y : Nat) : Nat :=
  match x, y with
  | 0, 0 => 0  | 1, 0 => 1  | 2, 0 => 62 | 3, 0 => 28 | 4, 0 => 27
  | 0, 1 => 36 | 1, 1 => 44 | 2, 1 => 6  | 3, 1 => 55 | 4, 1 => 20
  | 0, 2 => 3  | 1, 2 => 10 | 2, 2 => 43 | 3, 2 => 25 | 4, 2 => 39
  | 0, 3 => 41 | 1, 3 => 45 | 2, 3 => 15 | 3, 3 => 21 | 4, 3 => 8
  | 0, 4 => 18 | 1, 4 => 2  | 2, 4 => 61 | 3, 4 => 56 | 4, 4 => 14
  | _, _ => 0

/-- Combined ρ and π steps: target lane `(x', y')` receives the rotated
source lane `(x, y)` with `y = x'` and `x = 3(y' - 3x') mod 5`. -/
def rhoPi (st : List Nat) : List Nat :=
  (List.range 25).map fun t =>
    let x' := t % 5
    let y' := t / 5
    let y := x'
    let x := (3 * (y' + 15 - 3 * x')) % 5
    rotl64 (laneAt st (x + 5 * y)) (rotOff x y)

/-- χ step. -/
def chi (st : List Nat) : List Nat :=
  (List.range 25).map fun i =>
    let x := i % 5
    let y := i / 5
    laneAt st i ^^^
      ((laneAt st ((x + 1) % 5 + 5 * y) ^^^ mask64) &&& laneAt st ((x + 2) % 5 + 5 * y))

/-- Round constants of the ι step. -/
def roundConsts : List Nat :=
  [0x0000000000000001, 0x0000000000008082, 0x800000000000808a, 0x8000000080008000,
   0x000000000000808b, 0x0000000080000001, 0x8000000080008081, 0x8000000000008009,
   0x000000000000008a, 0x0000000000000088, 0x0000000080008009, 0x000000008000000a,
   0x000000008000808b, 0x800000000000008b, 0x8000000000008089, 0x8000000000008003,
   0x8000000000008002, 0x8000000000000080, 0x000000000000800a, 0x800000008000000a,
   0x8000000080008081, 0x8000000000008080, 0x0000000080000001, 0x8000000080008008]

/-- One Keccak-f round. -/
def keccakRound (st : List Nat) (rc : Nat) : List Nat :=
  let st' := chi (rhoPi (theta st))
  st'.set 0 (laneAt st' 0 ^^^ rc)

/-- The Keccak-f[1600] permutation: 24 rounds. -/
def keccakP (st : List Nat) : List Nat :=
  roundConsts.foldl keccakRound st

/-- Interpret 8 bytes as one little-endian 64-bit lane. -/
def bytesToLane (bytes : List Nat) : Nat :=
  bytes.foldr (fun b acc => acc * 256 + b) 0

/-- Split into blocks of `n` bytes (the absorbing chunker). -/
def chunks (n : Nat) : Nat → List Nat → List (List Nat)
  | 0, _ => []
  | _, [] => []
  | fuel + 1, bytes => bytes.take n :: chunks n fuel (bytes.drop n)

/-- XOR one rate-sized block into the state, then permute. -/
def absorbBlock (st : List Nat) (block : List Nat) : List Nat :=
  keccakP <| (List.range 25).map fun i =>
    if i < 17 then laneAt st i ^^^ bytesToLane ((block.drop (8 * i)).take 8)
    else laneAt st i

/-- Keccak `pad10*1` with the legacy `0x01` domain byte (what `keccak_256`
uses, as opposed to SHA-3's `0x06`). -/
def pad (msgLen : Nat) : List Nat :=
  let q := 136 - msgLen % 136
  if q = 1 then [0x81]
  else 0x01 :: List.replicate (q - 2) 0 ++ [0x80]

/-- A 64-bit lane as 8 little-endian bytes. -/
def laneBytes (lane : Nat) : List Nat :=
  (List.range 8).map fun k => (lane >>> (8 * k)) % 256

/-- Keccak-256 of a byte string: absorb all padded blocks, squeeze the
first 32 bytes (four lanes) of the final state. -/
def keccak256Bytes (msg : List Nat) : List Nat :=
  let padded := msg ++ pad msg.length
  let finalState := (chunks 136 (padded.length + 1) padded).foldl absorbBlock
    (List.replicate 25 0)
  (List.range 4).flatMap fun i => laneBytes (laneAt finalState i)

/-- Lowercase hex digit of a nibble. -/
def hexChar (n : Nat) : Char :=
  if n < 10 then Char.ofNat ('0'.toNat + n) else Char.ofNat ('a'.toNat + n - 10)

/-- `b.toString(16).padStart(2, '0')` for a byte. -/
def byteHex (b : Nat) : List Char :=
  [hexChar (b / 16), hexChar (b % 16)]

end Keccak

/-- `keccak256` (crypto/keccak256.ts): hash a string (UTF-8 encoded; the
callers only ever hash ASCII hex text, where UTF-8 bytes are the code
points) and render the digest as 64 lowercase hex characters. -/
def keccak256 (input : String) : String :=
  ⟨(Keccak.keccak256Bytes (input.data.map Char.toNat)).flatMap Keccak.byteHex⟩

/-! ## EIP-55 checksummed addresses (`crypto/eip55.ts`) and
`validateEvmAddress` (`validation/evm.ts`) -/

/-- ASCII `toLowerCase` on one character (the JavaScript operation on the
hex/`0x` alphabet used here). -/
def jsToLower (c : Char) : Char :=
  if 'A' ≤ c ∧ c ≤ 'Z' then Char.ofNat (c.toNat + 32) else c

/-- ASCII `toUpperCase` on one character. -/
def jsToUpper (c : Char) : Char :=
  if 'a' ≤ c ∧ c ≤ 'z' then Char.ofNat (c.toNat - 32) else c

/-- `s.toLowerCase()`. -/
def strToLower (s : String) : String := ⟨s.data.map jsToLower⟩

/-- `parseInt(hashChar, 16) >= 8` (false when the character is not a hex
digit, since `NaN >= 8` is false). -/
def hashNibbleGe8 (h : Char) : Bool :=
  match JsonParse.hexVal h with
  | some v => v ≥ 8
  | none => false

/-- The character loop of `toChecksumAddress`: hex letters whose hash
nibble is ≥ 8 are uppercased, everything else is kept.  A missing hash
character (`!hashChar`) makes the loop `continue`, appending nothing —
since missing positions form a suffix, that is truncation to the hash
length, here the zip. -/
def checksumZip : List Char → List Char → List Char
  | [], _ => []
  | _ :: _, [] => []
  | c :: cs, h :: hs =>
    (if 'a' ≤ c ∧ c ≤ 'f' then
       if hashNibbleGe8 h then jsToUpper c else c
     else c) :: checksumZip cs hs

/-- `toChecksumAddress` (eip55.ts): lowercase the hex part (dropping the
`0x` prefix), hash it, and uppercase each hex-letter position whose hash
nibble is ≥ 8. -/
def toChecksumAddress (address : String) : String :=
  let lowerHex : List Char := (address.data.drop 2).map jsToLower
  let hash : List Char := (keccak256 ⟨lowerHex⟩).data
  ⟨'0' :: 'x' :: checksumZip lowerHex hash⟩

/-- `isValidChecksum` (eip55.ts). -/
def isValidChecksum (address : String) : Bool :=
  address == toChecksumAddress address

/-- One character of the `[0-9a-fA-F]` class. -/
def isHexChar (c : Char) : Bool :=
  JsonParse.isDigit c || ('a' ≤ c && c ≤ 'f') || ('A' ≤ c && c ≤ 'F')

/-- `EVM_ADDRESS_REGEX.test(address)`: `/^0x[0-9a-fA-F]{40}$/`. -/
def evmAddressRegexTest (address : String) : Bool :=
  match address.data with
  | c0 :: c1 :: rest => c0 == '0' && c1 == 'x' && rest.length == 40 && rest.all isHexChar
  | _ => false

/-- `validateEvmAddress` (evm.ts): format check, then the three casing
regimes (all-lowercase → `NO_EVM_CHECKSUM` warning with the checksummed
fix; all-uppercase with a letter, or all digits → accepted), then EIP-55
verification for mixed case (`BAD_EVM_CHECKSUM` warning on mismatch). -/
def validateEvmAddress (address : String) (field : String) : List ValidationIssue :=
  if !evmAddressRegexTest address then
    [{ code := .INVALID_EVM_ADDRESS
       field
       message := "EVM address must be 42 hex characters with 0x prefix"
       severity := .error
       fix := some "Format: 0x followed by 40 hex digits (0-9, a-f, A-F)" }]
  else
    let hexPart : List Char := address.data.drop 2
    if address == strToLower address && hexPart.any (fun c => 'a' ≤ c && c ≤ 'f') then
      [{ code := .NO_EVM_CHECKSUM
         field
         message := "EVM address is all-lowercase with no checksum protection"
         severity := .warning
         fix := some ("Use checksummed address to detect typos: " ++ toChecksumAddress address) }]
    else if (hexPart.length == 40 &&
             hexPart.all (fun c => JsonParse.isDigit c || ('A' ≤ c && c ≤ 'F'))) &&
            hexPart.any (fun c => 'A' ≤ c && c ≤ 'F') then
      []
    else if hexPart.length == 40 && hexPart.all JsonParse.isDigit then
      []
    else if !isValidChecksum address then
      [{ code := .BAD_EVM_CHECKSUM
         field
         message := "EVM address has invalid checksum (EIP-55)"
         severity := .warning
         fix := some ("Expected: " ++ toChecksumAddress address) }]
    else
      []

/-! ## Registries

Modelled from the spec: the registry modules (`registries/networks.ts`,
`registries/simple-names.ts`, `registries/assets.ts`) are not under `src/`.
Spec §2/§6 treats them as static, read-only lookup tables with four pure
queries; the concrete rows below are a small faithful sample (CAIP-2 ids,
mainnet/testnet classification).  No claim depends on the table contents. -/

/-- Registry metadata for a network (name plus mainnet/testnet tag). -/
structure NetworkInfo where
  name : String
  type : String
deriving DecidableEq, Repr

/-- Registry metadata for an asset. -/
structure AssetInfo where
  symbol : String
  decimals : Nat
deriving DecidableEq, Repr

/-- Known-network table. -/
def networkRegistry : List (String × NetworkInfo) :=
  [("eip155:8453", ⟨"Base", "mainnet"⟩),
   ("eip155:84532", ⟨"Base Sepolia", "testnet"⟩),
   ("eip155:1", ⟨"Ethereum", "mainnet"⟩),
   ("solana:5eykt4UsFv8P8NJdTREpY1vzqKqZKvdp", ⟨"Solana", "mainnet"⟩)]

/-- "is this network identifier recognized" (registry query). -/
def isKnownNetwork (network : String) : Bool :=
  networkRegistry.any (fun p => p.1 == network)

/-- "get display metadata for this network identifier" (registry query). -/
def getNetworkInfo (network : Option String) : Option NetworkInfo :=
  network.bind fun n => (networkRegistry.find? (fun p => p.1 == n)).map (·.2)

/-- Simple-name table: recognizable shorthand ids with canonical CAIP-2
mappings. -/
def simpleNames : List (String × String) :=
  [("base", "eip155:8453"),
   ("base-sepolia", "eip155:84532"),
   ("ethereum", "eip155:1"),
   ("solana", "solana:5eykt4UsFv8P8NJdTREpY1vzqKqZKvdp")]

/-- `getCanonicalNetwork` (simple-names registry). -/
def getCanonicalNetwork (network : String) : Option String :=
  (simpleNames.find? (fun p => p.1 == network)).map (·.2)

/-- Character class of a CAIP-2 namespace: `[-a-z0-9]`. -/
def caip2NsChar (c : Char) : Bool :=
  c = '-' || ('a' ≤ c && c ≤ 'z') || JsonParse.isDigit c

/-- Character class of a CAIP-2 reference: `[-_a-zA-Z0-9]`. -/
def caip2RefChar (c : Char) : Bool :=
  c = '-' || c = '_' || ('a' ≤ c && c ≤ 'z') || ('A' ≤ c && c ≤ 'Z') ||
    JsonParse.isDigit c

/-- "is this a syntactically valid network identifier": the CAIP-2 pattern
`^[-a-z0-9]{3,8}:[-_a-zA-Z0-9]{1,32}$` (spec glossary: namespace +
reference, e.g. `eip155:8453`). -/
def isValidCaip2 (network : String) : Bool :=
  match network.data.splitOn ':' with
  | [ns, ref] =>
    decide (3 ≤ ns.length) && decide (ns.length ≤ 8) && ns.all caip2NsChar &&
      decide (1 ≤ ref.length) && decide (ref.length ≤ 32) && ref.all caip2RefChar
  | _ => false

/-- Known-asset table, keyed by (network, asset address). -/
def assetRegistry : List (String × String × AssetInfo) :=
  [("eip155:8453", "0x833589fCD6eDb6E08f4c7C32D4f71b54bdA02913", ⟨"USDC", 6⟩),
   ("eip155:84532", "0x036CbD53842c5426634e7929541eC2318f3dCF7e", ⟨"USDC", 6⟩)]

/-- "is this asset recognized for this network" (registry query). -/
def isKnownAsset (network asset : String) : Bool :=
  assetRegistry.any (fun r => r.1 == network && r.2.1 == asset)

/-- Registry metadata lookup for an asset. -/
def getAssetInfo (network asset : Option String) : Option AssetInfo :=
  match network, asset with
  | some n, some a => (assetRegistry.find? (fun r => r.1 == n && r.2.1 == a)).map (·.2.2)
  | _, _ => none

/-! ## Rule modules -/

/-- JavaScript falsiness of an optional string field (`undefined` or `''`). -/
def strFalsy : Option String → Bool
  | none => true
  | some s => s == ""

/-- `validateVersion` (rules/version.ts): the normalized `x402Version`
must be 1 or 2. -/
def validateVersion (config : NormalizedConfig) (_detectedFormat : ConfigFormat) :
    List ValidationIssue :=
  if config.x402Version ≠ 1 ∧ config.x402Version ≠ 2 then
    [{ code := .INVALID_VERSION
       field := "x402Version"
       message := ErrorMessages .INVALID_VERSION
       severity := .error }]
  else []

/-- `validateAccepts` (rules/fields.ts): presence/emptiness of the accepts
array.  `accepts` is a typed list in this embedding, so the
`Array.isArray` guard (`INVALID_ACCEPTS`) is always satisfied and only the
emptiness branch remains reachable. -/
def validateAccepts (config : NormalizedConfig) : List ValidationIssue :=
  if config.accepts.length = 0 then
    [{ code := .EMPTY_ACCEPTS
       field := "accepts"
       message := ErrorMessages .EMPTY_ACCEPTS
       severity := .error }]
  else []

/-- `validateFields` (rules/fields.ts): the five required entry fields. -/
def validateFields (entry : AcceptsEntry) (fieldPath : String) : List ValidationIssue :=
  (if strFalsy entry.scheme then
    [{ code := .MISSING_SCHEME, field := fieldPath ++ ".scheme"
       message := ErrorMessages .MISSING_SCHEME, severity := .error }] else []) ++
  (if strFalsy entry.network then
    [{ code := .MISSING_NETWORK, field := fieldPath ++ ".network"
       message := ErrorMessages .MISSING_NETWORK, severity := .error }] else []) ++
  (if strFalsy entry.amount then
    [{ code := .MISSING_AMOUNT, field := fieldPath ++ ".amount"
       message := ErrorMessages .MISSING_AMOUNT, severity := .error }] else []) ++
  (if strFalsy entry.asset then
    [{ code := .MISSING_ASSET, field := fieldPath ++ ".asset"
       message := ErrorMessages .MISSING_ASSET, severity := .error }] else []) ++
  (if strFalsy entry.payTo then
    [{ code := .MISSING_PAY_TO, field := fieldPath ++ ".payTo"
       message := ErrorMessages .MISSING_PAY_TO, severity := .error }] else [])

/-- Modelled from the spec: `new URL(url)` validity (the WHATWG URL
constructor is external library behavior): a nonempty alphabetic-led
scheme followed by `:`.  No claim depends on the URL grammar. -/
def urlValid (url : String) : Bool :=
  match url.data.splitOn ':' with
  | scheme :: _ :: _ =>
    decide (1 ≤ scheme.length) &&
      (match scheme with
       | c :: rest =>
         (('a' ≤ c && c ≤ 'z') || ('A' ≤ c && c ≤ 'Z')) &&
           rest.all (fun d => ('a' ≤ d && d ≤ 'z') || ('A' ≤ d && d ≤ 'Z') ||
             JsonParse.isDigit d || d = '+' || d = '-' || d = '.')
       | [] => false)
  | _ => false

/-- `validateResource` (rules/fields.ts): `resource.url` expected on v2
(warning when absent) and checked for URL well-formedness. -/
def validateResource (config : NormalizedConfig) (detectedFormat : ConfigFormat) :
    List ValidationIssue :=
  match config.resource with
  | none =>
    if detectedFormat = .v2 then
      [{ code := .MISSING_RESOURCE, field := "resource"
         message := ErrorMessages .MISSING_RESOURCE, severity := .warning }]
    else []
  | some r =>
    if strFalsy r.url then
      [{ code := .MISSING_RESOURCE, field := "resource.url"
         message := ErrorMessages .MISSING_RESOURCE, severity := .warning }]
    else if !urlValid (r.url.getD "") then
      [{ code := .INVALID_URL, field := "resource.url"
         message := "resource.url is not a valid URL format", severity := .warning }]
    else []

/-- `validateNetwork` (rules/network.ts): CAIP-2 format errors (with a
canonical-id fix for recognizable simple names) and unknown-network
warnings. -/
def validateNetwork (entry : AcceptsEntry) (fieldPath : String) : List ValidationIssue :=
  if strFalsy entry.network then []
  else
    let network := entry.network.getD ""
    if !isValidCaip2 network then
      match getCanonicalNetwork network with
      | some canonical =>
        [{ code := .INVALID_NETWORK_FORMAT, field := fieldPath ++ ".network"
           message := ErrorMessages .INVALID_NETWORK_FORMAT, severity := .error
           fix := some ("Use '" ++ canonical ++ "' instead of '" ++ network ++ "'") }]
      | none =>
        [{ code := .INVALID_NETWORK_FORMAT, field := fieldPath ++ ".network"
           message := ErrorMessages .INVALID_NETWORK_FORMAT, severity := .error }]
    else if !isKnownNetwork network then
      [{ code := .UNKNOWN_NETWORK, field := fieldPath ++ ".network"
         message := ErrorMessages .UNKNOWN_NETWORK, severity := .warning }]
    else []

/-- `validateAsset` (rules/network.ts): unknown-asset warning when the
network is valid CAIP-2 and the pair is not in the registry. -/
def validateAsset (entry : AcceptsEntry) (fieldPath : String) : List ValidationIssue :=
  if strFalsy entry.asset then []
  else if !(strFalsy entry.network) && isValidCaip2 (entry.network.getD "") &&
      !isKnownAsset (entry.network.getD "") (entry.asset.getD "") then
    [{ code := .UNKNOWN_ASSET, field := fieldPath ++ ".asset"
       message := ErrorMessages .UNKNOWN_ASSET, severity := .warning }]
  else []

/-- The `/^\d+$/` test of `validateAmount`. -/
def digitsOnly (s : String) : Bool :=
  decide (1 ≤ s.data.length) && s.data.all JsonParse.isDigit

/-- `validateAmount` (rules/amount.ts): the amount string must be digits
only (atomic units) and not the string `'0'`. -/
def validateAmount (entry : AcceptsEntry) (fieldPath : String) : List ValidationIssue :=
  if strFalsy entry.amount then []
  else
    let amount := entry.amount.getD ""
    if !digitsOnly amount then
      [{ code := .INVALID_AMOUNT, field := fieldPath ++ ".amount"
         message := ErrorMessages .INVALID_AMOUNT, severity := .error }]
    else if amount == "0" then
      [{ code := .ZERO_AMOUNT, field := fieldPath ++ ".amount"
         message := ErrorMessages .ZERO_AMOUNT, severity := .error }]
    else []

/-- `validateTimeout` (rules/amount.ts): absent timeout warns on v2; a
present timeout must be a number, an integer, and positive. -/
def validateTimeout (entry : AcceptsEntry) (fieldPath : String)
    (detectedFormat : ConfigFormat) : List ValidationIssue :=
  match entry.maxTimeoutSeconds with
  | none =>
    if detectedFormat = .v2 then
      [{ code := .MISSING_MAX_TIMEOUT, field := fieldPath ++ ".maxTimeoutSeconds"
         message := ErrorMessages .MISSING_MAX_TIMEOUT, severity := .warning }]
    else []
  | some v =>
    match v with
    | .num q =>
      if q.den ≠ 1 then
        [{ code := .INVALID_TIMEOUT, field := fieldPath ++ ".maxTimeoutSeconds"
           message := ErrorMessages .INVALID_TIMEOUT, severity := .error }]
      else if q.num ≤ 0 then
        [{ code := .INVALID_TIMEOUT, field := fieldPath ++ ".maxTimeoutSeconds"
           message := ErrorMessages .INVALID_TIMEOUT, severity := .error }]
      else []
    | _ =>
      [{ code := .INVALID_TIMEOUT, field := fieldPath ++ ".maxTimeoutSeconds"
         message := ErrorMessages .INVALID_TIMEOUT, severity := .error }]

/-- `validateLegacy` (rules/legacy.ts): upgrade-path warning for v1. -/
def validateLegacy (_config : NormalizedConfig) (detectedFormat : ConfigFormat)
    (_originalInput : Json) : List ValidationIssue :=
  if detectedFormat = .v1 then
    [{ code := .LEGACY_FORMAT, field := "$"
       message := ErrorMessages .LEGACY_FORMAT, severity := .warning
       fix := some "Upgrade to x402 v2 -- use amount instead of maxAmountRequired, add resource object" }]
  else []


/-- `isObject` (rules/extensions.ts) applied to a possibly-`undefined`
value: non-null plain object. -/
def isObjectJ (v : Option Json) : Bool :=
  match v with
  | some j => j.isRecord
  | none => false

/-- Truthiness of `v[key]` where `v` may be `undefined` or not an object. -/
def optGetTruthy (v : Option Json) (key : String) : Bool :=
  match v with
  | some j => j.getTruthy key
  | none => false

/-- `validateBazaar` (rules/extensions.ts): structural shape check of
`extensions.bazaar` when present — an info object (with input type/method
and an output object) and a JSON-Schema-looking schema object.  All
warnings. -/
def validateBazaar (config : NormalizedConfig) : List ValidationIssue :=
  match config.extensions with
  | none => []
  | some ext =>
    match ext.get "bazaar" with
    | none => []
    | some bazaar =>
      if !bazaar.isRecord then
        [{ code := .INVALID_BAZAAR_INFO, field := "extensions.bazaar"
           message := "extensions.bazaar must be an object", severity := .warning
           fix := some "Set extensions.bazaar to an object with info and schema properties" }]
      else
        (match bazaar.get "info" with
         | some info =>
           if info.isRecord then
             (let input := info.get "input"
              if !isObjectJ input || !optGetTruthy input "type" ||
                  !optGetTruthy input "method" then
                [{ code := .INVALID_BAZAAR_INFO_INPUT, field := "extensions.bazaar.info.input"
                   message := ErrorMessages .INVALID_BAZAAR_INFO_INPUT, severity := .warning
                   fix := some "Add input.type (e.g. \"application/json\") and input.method (e.g. \"POST\")" }]
              else []) ++
             (if !isObjectJ (info.get "output") then
                [{ code := .INVALID_BAZAAR_INFO, field := "extensions.bazaar.info.output"
                   message := "extensions.bazaar.info.output must be an object", severity := .warning
                   fix := some "Add an output object describing the API response format" }]
              else [])
           else
             [{ code := .INVALID_BAZAAR_INFO, field := "extensions.bazaar.info"
                message := ErrorMessages .INVALID_BAZAAR_INFO, severity := .warning
                fix := some "Add an info object with input and output properties describing your API" }]
         | none =>
           [{ code := .INVALID_BAZAAR_INFO, field := "extensions.bazaar.info"
              message := ErrorMessages .INVALID_BAZAAR_INFO, severity := .warning
              fix := some "Add an info object with input and output properties describing your API" }]) ++
        (let schema := bazaar.get "schema"
         if !isObjectJ schema ||
             (!optGetTruthy schema "type" && !optGetTruthy schema "$schema" &&
               !optGetTruthy schema "properties") then
           [{ code := .INVALID_BAZAAR_SCHEMA, field := "extensions.bazaar.schema"
              message := ErrorMessages .INVALID_BAZAAR_SCHEMA, severity := .warning
              fix := some "Add a JSON Schema object with type, $schema, or properties" }]
         else [])

/-- Per-entry loop of `validateOutputSchema`, carrying the entry index. -/
def outputSchemaIssuesAux : Nat → List Json → List ValidationIssue
  | _, [] => []
  | i, entry :: rest =>
    (if !entry.isRecord then []
     else
       match entry.get "outputSchema" with
       | none => []
       | some os =>
         let fieldPath := "accepts[" ++ toString i ++ "].outputSchema"
         if !os.isRecord then
           [{ code := .INVALID_OUTPUT_SCHEMA, field := fieldPath
              message := ErrorMessages .INVALID_OUTPUT_SCHEMA, severity := .warning
              fix := some "Set outputSchema to an object with input and output properties" }]
         else
           (let input := os.get "input"
            if !isObjectJ input || !optGetTruthy input "type" ||
                !optGetTruthy input "method" then
              [{ code := .INVALID_OUTPUT_SCHEMA_INPUT, field := fieldPath ++ ".input"
                 message := ErrorMessages .INVALID_OUTPUT_SCHEMA_INPUT, severity := .warning
                 fix := some "Add input.type (e.g. \"application/json\") and input.method (e.g. \"POST\")" }]
            else []) ++
           (if !isObjectJ (os.get "output") then
              [{ code := .INVALID_OUTPUT_SCHEMA, field := fieldPath ++ ".output"
                 message := "accepts[i].outputSchema.output must be an object", severity := .warning
                 fix := some "Add an output object describing the API response format" }]
            else [])) ++
    outputSchemaIssuesAux (i + 1) rest

/-- `validateOutputSchema` (rules/extensions.ts): per-entry shape check of
the deprecated `accepts[].outputSchema`, read from the raw parsed input
because normalization strips it. -/
def validateOutputSchema (parsed : Json) : List ValidationIssue :=
  match parsed.get "accepts" with
  | some (.arr entries) => outputSchemaIssuesAux 0 entries
  | _ => []

/-- `validateMissingSchema` (rules/extensions.ts): single warning when
neither `extensions.bazaar` nor any `accepts[].outputSchema` is present. -/
def validateMissingSchema (config : NormalizedConfig) (parsed : Json) :
    List ValidationIssue :=
  let hasBazaar :=
    match config.extensions with
    | some ext => (ext.get "bazaar").isSome
    | none => false
  if hasBazaar then []
  else
    let anyOutputSchema :=
      match parsed.get "accepts" with
      | some (.arr entries) =>
        entries.any (fun e => e.isRecord && (e.get "outputSchema").isSome)
      | _ => false
    if anyOutputSchema then []
    else
      [{ code := .MISSING_INPUT_SCHEMA, field := "extensions"
         message := ErrorMessages .MISSING_INPUT_SCHEMA, severity := .warning
         fix := some "Add extensions.bazaar with info and schema to help agents discover your API -- see https://bazaar.x402.org" }]

/-- Modelled from the spec: `validateAddress` (validation/address.ts) is
called by the orchestrator but is not under `src/`.  Spec §4.3: it
"dispatches by network namespace to a chain-specific checksum validator";
the EVM path (`eip155`) is `validateEvmAddress` (which is under `src/`);
validators for other namespaces are not under `src/` and are modelled as
accepting. -/
def validateAddress (payTo network field : String) : List ValidationIssue :=
  match network.data with
  | 'e' :: 'i' :: 'p' :: '1' :: '5' :: '5' :: ':' :: _ =>
    validateEvmAddress payTo field
  | _ => []

/-! ## Normalizer

Modelled from the spec: `detection/normalize.ts` is consumed by the
orchestrator but is not under `src/`.  Spec §4.2: v2 passes through with
`x402Version` pinned to 2; v1 renames the legacy maximum-amount field
(`maxAmountRequired`) to `amount`; flat-legacy lifts the implicit payment
fields into a one-element accepts array; financial fields are relocated,
never rewritten; `null` signals an unrecoverable mismatch. -/

/-- Project one raw accepts element onto an `AcceptsEntry` (canonical field
names).  String-typed fields keep only string values, per the spec's
`AcceptsEntry` typing. -/
def toEntry (j : Json) : AcceptsEntry :=
  { scheme := j.getStr "scheme"
    network := j.getStr "network"
    amount := j.getStr "amount"
    asset := j.getStr "asset"
    payTo := j.getStr "payTo"
    maxTimeoutSeconds := j.get "maxTimeoutSeconds" }

/-- v1 projection: the legacy `maxAmountRequired` field becomes `amount`. -/
def toEntryV1 (j : Json) : AcceptsEntry :=
  { toEntry j with amount := j.getStr "maxAmountRequired" }

/-- flat-legacy projection: lift the top-level payment fields (with
`address` as the legacy spelling of `payTo`) into one entry. -/
def toEntryFlat (j : Json) : AcceptsEntry :=
  { scheme := j.getStr "scheme"
    network := j.getStr "network"
    amount := j.getStr "amount"
    asset := j.getStr "asset"
    payTo := match j.getStr "payTo" with
             | some s => some s
             | none => j.getStr "address"
    maxTimeoutSeconds := j.get "maxTimeoutSeconds" }

/-- Elements of the `accepts` array of a parsed config. -/
def acceptsElems (j : Json) : List Json :=
  match j.get "accepts" with
  | some (.arr elems) => elems
  | _ => []

/-- The `resource` object of a parsed config. -/
def resourceOf (j : Json) : Option ResourceInfo :=
  match j.get "resource" with
  | some r => if r.isRecord then some { url := r.getStr "url" } else none
  | none => none

/-- `normalize` (detection/normalize.ts), modelled from the spec: map the
detected shape onto the canonical v2 structure, `none` for an
unrecognized shape.  (Named `normalizeConfig` here because Mathlib already
owns `normalize`.) -/
def normalizeConfig (parsed : Json) : Option NormalizedConfig :=
  match detect (.js parsed) with
  | .v2 =>
    some { x402Version := 2
           accepts := (acceptsElems parsed).map toEntry
           resource := resourceOf parsed
           extensions := parsed.get "extensions" }
  | .v1 =>
    some { x402Version := 2
           accepts := (acceptsElems parsed).map toEntryV1
           resource := resourceOf parsed
           extensions := parsed.get "extensions" }
  | .flatLegacy =>
    some { x402Version := 2
           accepts := [toEntryFlat parsed]
           resource := resourceOf parsed
           extensions := parsed.get "extensions" }
  | .unknown => none

/-! ## Validation orchestrator (`validation/orchestrator.ts`) -/

/-- `ValidationOptions`: the one recognized option. -/
structure ValidationOptions where
  strict : Option Bool := none

/-- Strict-mode promotion: `{ ...warning, severity: 'error' }`. -/
def promoteWarning (w : ValidationIssue) : ValidationIssue :=
  { w with severity := .error }

/-- The per-entry slice of the rule pipeline (orchestrator levels 3–4),
split into the error and warning buckets in source push order: fields,
network errors, amount, timeout errors, address errors; network warnings,
asset, timeout warnings, address warnings. -/
def entryIssues (format : ConfigFormat) (i : Nat) (entry : AcceptsEntry) :
    List ValidationIssue × List ValidationIssue :=
  let fieldPath := "accepts[" ++ toString i ++ "]"
  let netIssues := validateNetwork entry fieldPath
  let timeoutIssues := validateTimeout entry fieldPath format
  let addrIssues :=
    if !strFalsy entry.payTo && !strFalsy entry.network then
      validateAddress (entry.payTo.getD "") (entry.network.getD "") (fieldPath ++ ".payTo")
    else []
  (validateFields entry fieldPath ++
     netIssues.filter (fun is => is.severity == .error) ++
     validateAmount entry fieldPath ++
     timeoutIssues.filter (fun is => is.severity == .error) ++
     addrIssues.filter (fun is => is.severity == .error),
   netIssues.filter (fun is => is.severity == .warning) ++
     validateAsset entry fieldPath ++
     timeoutIssues.filter (fun is => is.severity == .warning) ++
     addrIssues.filter (fun is => is.severity == .warning))

/-- Orchestrator levels 2–6: run every rule module over the normalized
config (and raw parsed value), returning the error and warning buckets in
source push order. -/
def collectIssues (parsed : Json) (format : ConfigFormat)
    (normalized : NormalizedConfig) : List ValidationIssue × List ValidationIssue :=
  let perEntry := (normalized.accepts.enum.map fun p => entryIssues format p.1 p.2)
  (validateVersion normalized format ++ validateAccepts normalized ++
     perEntry.flatMap Prod.fst,
   validateResource normalized format ++
     perEntry.flatMap Prod.snd ++
     validateLegacy normalized format parsed ++
     validateBazaar normalized ++
     validateOutputSchema parsed ++
     validateMissingSchema normalized parsed)

/-- The terminal `UNKNOWN_FORMAT` issue of the failed-normalization path. -/
def unknownFormatIssue : ValidationIssue :=
  { code := .UNKNOWN_FORMAT
    field := "$"
    message := ErrorMessages .UNKNOWN_FORMAT
    severity := .error }

/-- `runPipeline` (orchestrator.ts): the four sequential stages.  The one
spot where the JavaScript could throw — dereferencing `structure.parsed`
when it is `null` despite an empty issue list, which `validateStructure`
never produces — is modelled as `Except.error`, handled by `validate`'s
safety net. -/
def runPipeline (input : RawInput) (options : Option ValidationOptions) :
    Except Unit ValidationResult :=
  let s := validateStructure input
  if s.issues.length > 0 then
    -- `structure.format || 'unknown'`: every format tag is a nonempty,
    -- hence truthy, string, so the fallback never fires and the version
    -- is the detected format itself.
    .ok { valid := false
          version := s.format
          errors := s.issues
          warnings := []
          normalized := none }
  else
    match s.parsed with
    | none => .error ()
    | some parsed =>
      let format := s.format
      match normalizeConfig parsed with
      | none =>
        .ok { valid := false
              version := format
              errors := [unknownFormatIssue]
              warnings := []
              normalized := none }
      | some normalized =>
        let (errors, warnings) := collectIssues parsed format normalized
        let strict : Bool :=
          match options with
          | some o => o.strict == some true
          | none => false
        let errors' := if strict then errors ++ warnings.map promoteWarning else errors
        let warnings' := if strict then [] else warnings
        .ok { valid := errors'.length == 0
              version := format
              errors := errors'
              warnings := warnings'
              normalized := some normalized }

/-- The generic terminal result of `validate`'s catch-all (orchestrator.ts
lines 74–87). -/
def catchAllResult : ValidationResult :=
  { valid := false
    version := .unknown
    errors := [{ code := .UNKNOWN_FORMAT
                 field := "$"
                 message := "Unexpected validation error"
                 severity := .error }]
    warnings := []
    normalized := none }

/-- The `try`/`catch` of `validate` as a function of the pipeline outcome:
a normal completion is returned as-is, a thrown failure becomes the
generic terminal result. -/
def safetyNet : Except Unit ValidationResult → ValidationResult
  | .ok r => r
  | .error _ => catchAllResult

/-- `validate` (orchestrator.ts): run the pipeline inside the safety net;
any internal failure produces the generic terminal error result. -/
def validate (input : RawInput) (options : Option ValidationOptions) :
    ValidationResult :=
  safetyNet (runPipeline input options)

/-! ## HTTP config extraction (`extraction/extract.ts`) and the unified
`check` API (`check.ts`) -/

/-- Where a config was found. -/
inductive ExtractionSource where
  | body
  | header
deriving DecidableEq, Repr

/-- `ExtractionResult`. -/
structure ExtractionResult where
  config : Option Json
  source : Option ExtractionSource
  error : Option String

/-- `ResponseLike`: minimal response shape.  Headers are modelled as the
plain-record branch of `getHeader` (the fetch `Headers` object branch is
behaviorally the same case-insensitive lookup). -/
structure ResponseLike where
  body : Option Json := none
  headers : Option (List (String × String)) := none

/-- `getHeader` (extract.ts): case-insensitive lookup over the header
record, first matching key wins. -/
def getHeader (headers : Option (List (String × String))) (name : String) :
    Option String :=
  match headers with
  | none => none
  | some hs =>
    (hs.find? (fun p => strToLower p.1 == strToLower name)).map (·.2)

/-- Value of a base64 alphabet character. -/
def b64Val (c : Char) : Option Nat :=
  if 'A' ≤ c ∧ c ≤ 'Z' then some (c.toNat - 'A'.toNat)
  else if 'a' ≤ c ∧ c ≤ 'z' then some (c.toNat - 'a'.toNat + 26)
  else if '0' ≤ c ∧ c ≤ '9' then some (c.toNat - '0'.toNat + 52)
  else if c = '+' then some 62
  else if c = '/' then some 63
  else none

/-- Decode base64 in 4-character quanta ('=' padding on the last quantum);
`none` models the `atob` exception on malformed input.  Decoded bytes are
read back as Latin-1 characters, which is `atob`'s behavior. -/
def b64Quanta : Nat → List Char → Option (List Char)
  | 0, _ => none
  | _, [] => some []
  | fuel + 1, c1 :: c2 :: c3 :: c4 :: rest =>
    match b64Val c1, b64Val c2 with
    | some v1, some v2 =>
      if c3 = '=' ∧ c4 = '=' ∧ rest = [] then
        some [Char.ofNat ((v1 <<< 2 ||| v2 >>> 4) % 256)]
      else
        match b64Val c3 with
        | some v3 =>
          if c4 = '=' ∧ rest = [] then
            some [Char.ofNat ((v1 <<< 2 ||| v2 >>> 4) % 256),
                  Char.ofNat (((v2 <<< 4 ||| v3 >>> 2) % 256))]
          else
            match b64Val c4 with
            | some v4 =>
              match b64Quanta fuel rest with
              | some tail =>
                some ([Char.ofNat ((v1 <<< 2 ||| v2 >>> 4) % 256),
                       Char.ofNat ((v2 <<< 4 ||| v3 >>> 2) % 256),
                       Char.ofNat ((v3 <<< 6 ||| v4) % 256)] ++ tail)
              | none => none
            | none => none
        | none => none
    | _, _ => none
  | _ + 1, _ => none

/-- `decodeBase64` (extract.ts): `atob` semantics, `none` for a thrown
`InvalidCharacterError`. -/
def decodeBase64 (encoded : String) : Option String :=
  (b64Quanta (encoded.length + 1) encoded.data).map fun cs => ⟨cs⟩

/-- `hasX402Fields` (extract.ts): a non-null object value with a truthy
`accepts`, `payTo` or `x402Version` field. -/
def hasX402Fields (j : Json) : Bool :=
  match j with
  | .obj _ => j.getTruthy "accepts" || j.getTruthy "payTo" || j.getTruthy "x402Version"
  | .arr _ => false
  | _ => false

/-- A parse attempt accepted only when it yields a non-null, non-array
object (the guard both header branches apply). -/
def parsedRecord (s : String) : Option Json :=
  match Json.parse s with
  | some j => if j.isRecord then some j else none
  | none => none

/-- `tryHeaderExtraction` (extract.ts): the PAYMENT-REQUIRED header as
base64-encoded JSON, then as raw JSON. -/
def tryHeaderExtraction (headers : Option (List (String × String))) :
    Option Json :=
  match getHeader headers "payment-required" with
  | none => none
  | some headerValue =>
    if headerValue == "" then none
    else
      match decodeBase64 headerValue with
      | some decoded =>
        (match parsedRecord decoded with
         | some j => some j
         | none => parsedRecord headerValue)
      | none => parsedRecord headerValue

/-- JavaScript `trim` restricted to the ASCII whitespace of interest. -/
def jsTrim (s : String) : String :=
  ⟨(s.data.dropWhile JsonParse.isWs).reverse.dropWhile JsonParse.isWs |>.reverse⟩

/-- `extractConfig` (extract.ts): body-object first, then a JSON string
body, then the PAYMENT-REQUIRED header; a structured error when nothing
matches. -/
def extractConfig (response : ResponseLike) : ExtractionResult :=
  let bodyHit : Option Json :=
    match response.body with
    | some b =>
      if b.isRecord && hasX402Fields b then some b
      else
        (match b with
         | .str s =>
           if jsTrim s != "" then
             (match Json.parse s with
              | some parsed =>
                if parsed.isRecord && hasX402Fields parsed then some parsed else none
              | none => none)
           else none
         | _ => none)
    | none => none
  match bodyHit with
  | some config => { config := some config, source := some .body, error := none }
  | none =>
    match tryHeaderExtraction response.headers with
    | some config => { config := some config, source := some .header, error := none }
    | none =>
      { config := none
        source := none
        error := some "No x402 config found in response body or PAYMENT-REQUIRED header" }

/-- Display-ready summary of one accepts entry (`AcceptSummary`,
types/check.ts).  Entry fields keep their optionality because the
normalized entries may lack them at runtime. -/
structure AcceptSummary where
  index : Nat
  network : Option String
  networkName : Option String
  networkType : Option String
  payTo : Option String
  amount : Option String
  asset : Option String
  assetSymbol : Option String
  assetDecimals : Option Nat
  scheme : Option String

/-- `CheckResult` (types/check.ts). -/
structure CheckResult where
  extracted : Bool
  source : Option ExtractionSource
  extractionError : Option String
  valid : Bool
  version : ConfigFormat
  errors : List ValidationIssue
  warnings : List ValidationIssue
  normalized : Option NormalizedConfig
  summary : List AcceptSummary
  raw : Option Json

/-- The summary row built by `check` for one entry. -/
def summarizeEntry (i : Nat) (entry : AcceptsEntry) : AcceptSummary :=
  let networkInfo := getNetworkInfo entry.network
  let assetInfo := getAssetInfo entry.network entry.asset
  { index := i
    network := entry.network
    networkName :=
      match networkInfo with
      | some ni => some ni.name
      | none => entry.network
    networkType := networkInfo.map (·.type)
    payTo := entry.payTo
    amount := entry.amount
    asset := entry.asset
    assetSymbol := assetInfo.map (·.symbol)
    assetDecimals := assetInfo.map (·.decimals)
    scheme := entry.scheme }

/-- `check` (check.ts): extract, validate, and enrich with registry data;
never throws, extraction failure yields the empty terminal result with
the extraction error carried through. -/
def check (response : ResponseLike) (options : Option ValidationOptions) :
    CheckResult :=
  let extraction := extractConfig response
  match extraction.config with
  | none =>
    { extracted := false
      source := none
      extractionError := extraction.error
      valid := false
      version := .unknown
      errors := []
      warnings := []
      normalized := none
      summary := []
      raw := none }
  | some config =>
    let validation := validate (.js config) options
    let accepts :=
      match validation.normalized with
      | some n => n.accepts
      | none => []
    { extracted := true
      source := extraction.source
      extractionError := none
      valid := validation.valid
      version := validation.version
      errors := validation.errors
      warnings := validation.warnings
      normalized := validation.normalized
      summary := accepts.enum.map fun p => summarizeEntry p.1 p.2
      raw := some config }

/-! ## Manifest-aware format detection

Modelled from the spec: the current repository's detector adds a manifest
branch ahead of the others (spec §4.1 and the project decision record:
"manifest detection must occur before v2"), but that revision of
`detection/detect.ts` — and its `isManifestConfig` guard — is not under
`src/`.  Its tag set extends `ConfigFormat` with `manifest`. -/

/-- The detected-format tag including the manifest shape. -/
inductive ManifestConfigFormat where
  | manifest
  | v2
  | v1
  | flatLegacy
  | unknown
deriving DecidableEq, Repr

/-- Modelled from the spec (§4.1): the manifest shape "has an `endpoints`
key …, regardless of other fields". -/
def isManifestConfig (j : Json) : Bool :=
  Json.isRecord j && j.hasKey "endpoints"

/-- Modelled from the spec (§4.1): shape predicates in the fixed order
manifest, v2, v1, flat-legacy; first match wins. -/
def detectWithManifest (j : Json) : ManifestConfigFormat :=
  if isManifestConfig j then .manifest
  else if isV2Config j then .v2
  else if isV1Config j then .v1
  else if isFlatLegacyConfig j then .flatLegacy
  else .unknown

/-! # Claims -/

/-- C5: format detection tests shape predicates in the fixed order
manifest, v2, v1, flat-legacy with first match winning; in particular,
every parsed object carrying an `endpoints` key is classified as
manifest, even when it also has an `accepts` array and `x402Version: 2`
(the predicates after the manifest test are never consulted). -/
theorem detect_manifest_first (j : Json) (hrec : Json.isRecord j = true)
    (hend : j.hasKey "endpoints" = true) :
    detectWithManifest j = .manifest := by
  unfold detectWithManifest isManifestConfig
  simp [hrec, hend]

/-- Witness for C5: a manifest that also matches the v2 predicate
(`accepts` array plus `x402Version: 2`) is still detected as manifest. -/
theorem detect_manifest_first_witness :
    isV2Config (Json.obj [("endpoints", .obj []), ("accepts", .arr []),
      ("x402Version", .num (mkRat 2 1))]) = true ∧
    detectWithManifest (Json.obj [("endpoints", .obj []), ("accepts", .arr []),
      ("x402Version", .num (mkRat 2 1))]) = .manifest :=
  ⟨rfl, detect_manifest_first _ rfl rfl⟩

/-- C8 counterexample: the amount string `"00"` is digits-only and denotes
the value zero, yet `validateAmount` emits no issue — the code's zero
check is string equality with `'0'`, not the denoted value. -/
theorem validateAmount_00_no_issue :
    validateAmount { amount := some "00" } "accepts[0]" = [] ∧
    digitsOnly "00" = true ∧
    JsonParse.digitsToNat "00".data = 0 :=
  ⟨rfl, rfl, rfl⟩

/-- C8 (amended): for an entry whose amount is present (and nonempty,
since the empty string is falsy and skips the module), an amount issue is
emitted iff the string is not digits-only or is exactly the string `'0'`;
equivalently, no issue iff digits-only and not the literal `'0'`. -/
theorem validateAmount_no_issue_iff (e : AcceptsEntry) (p s : String)
    (hamt : e.amount = some s) (hne : s ≠ "") :
    validateAmount e p = [] ↔ (digitsOnly s = true ∧ s ≠ "0") := by
  unfold validateAmount strFalsy
  rw [hamt]
  simp only [Option.getD_some]
  constructor
  · intro h
    by_cases hd : digitsOnly s
    · refine ⟨hd, ?_⟩
      intro h0
      subst h0
      simp [hd] at h
    · exfalso
      have : (s == "") = false := by
        simp [hne]
      simp [this, hd] at h
  · rintro ⟨hd, h0⟩
    have hbe : (s == "") = false := by simp [hne]
    have hb0 : (s == "0") = false := by simp [h0]
    simp [hbe, hd, hb0]

/-- Witness for C8 (amended): a digits-only, non-`'0'` amount produces no
amount issue. -/
theorem validateAmount_no_issue_iff_witness :
    ({ amount := some "5" } : AcceptsEntry).amount = some "5" ∧ "5" ≠ "" ∧
    (validateAmount { amount := some "5" } "accepts[0]" = [] ↔
      (digitsOnly "5" = true ∧ "5" ≠ "0")) :=
  ⟨rfl, by decide, validateAmount_no_issue_iff _ "accepts[0]" "5" rfl (by decide)⟩

/-- Each `extractConfig` outcome either carries a config or is exactly
the terminal no-config result with the failure message. -/
theorem extractConfig_cases (response : ResponseLike) :
    ((extractConfig response).config).isSome = true ∨
    extractConfig response =
      { config := none
        source := none
        error := some "No x402 config found in response body or PAYMENT-REQUIRED header" } := by
  unfold extractConfig
  dsimp only
  split
  · left; rfl
  · split
    · left; rfl
    · right; rfl

/-- C10: when extraction finds no config, `check` returns the terminal
result with `extracted = false`, `valid = false`, version `unknown`,
null normalized config, empty error/warning/summary lists, and the
extraction failure message carried in `extractionError` — so at this
interface `valid = false` can hold with zero errors. -/
theorem check_extraction_failure (response : ResponseLike)
    (options : Option ValidationOptions)
    (h : (extractConfig response).config = none) :
    check response options =
      { extracted := false
        source := none
        extractionError := (extractConfig response).error
        valid := false
        version := .unknown
        errors := []
        warnings := []
        normalized := none
        summary := []
        raw := none } ∧
    (extractConfig response).error =
      some "No x402 config found in response body or PAYMENT-REQUIRED header" := by
  constructor
  · unfold check
    dsimp only
    rw [h]
  · rcases extractConfig_cases response with hs | he
    · rw [h] at hs
      simp at hs
    · rw [he]

/-- Witness for C10: a response with no body and no headers extracts
nothing. -/
theorem check_extraction_failure_witness :
    (extractConfig { } ).config = none ∧
    check { } none =
      { extracted := false
        source := none
        extractionError := (extractConfig { }).error
        valid := false
        version := .unknown
        errors := []
        warnings := []
        normalized := none
        summary := []
        raw := none } :=
  ⟨rfl, (check_extraction_failure { } none rfl).1⟩

/-- C1: `validate` is the pipeline wrapped in the safety net — it returns
a `ValidationResult` for every input and options value (totality is the
type of the embedding: every JavaScript throw site is modelled as data),
and the safety net maps any pipeline failure to the single generic
terminal result: `valid = false`, version `unknown`, exactly one error,
no warnings, and no normalized config. -/
theorem validate_never_raises (input : RawInput)
    (options : Option ValidationOptions) (p : Except Unit ValidationResult) :
    validate input options = safetyNet (runPipeline input options) ∧
    ((∃ e, p = .error e) → safetyNet p = catchAllResult) ∧
    catchAllResult.valid = false ∧
    catchAllResult.version = .unknown ∧
    catchAllResult.errors.length = 1 ∧
    catchAllResult.warnings = [] ∧
    catchAllResult.normalized = none := by
  refine ⟨rfl, ?_, rfl, rfl, rfl, rfl, rfl⟩
  rintro ⟨e, rfl⟩
  rfl

/-- Witness for C1: the failure branch of the safety net at a concrete
pipeline outcome yields the generic terminal result. -/
theorem validate_never_raises_witness :
    (∃ e, (Except.error () : Except Unit ValidationResult) = .error e) ∧
    safetyNet (Except.error ()) = catchAllResult :=
  ⟨⟨(), rfl⟩,
   (validate_never_raises (.js (Json.obj [])) none (.error ())).2.1 ⟨(), rfl⟩⟩

/-- C4: every string input that fails to parse as JSON yields the
terminal structural result — invalid, version `unknown`, exactly the one
`INVALID_JSON` error, no warnings, no normalized config (no rule module
output is present). -/
theorem validate_invalid_json (s : String) (options : Option ValidationOptions)
    (h : Json.parse s = none) :
    validate (.text s) options =
      { valid := false
        version := .unknown
        errors := [{ code := .INVALID_JSON
                     field := "$"
                     message := ErrorMessages .INVALID_JSON
                     severity := .error }]
        warnings := []
        normalized := none } := by
  unfold validate runPipeline validateStructure parseInput
  dsimp only
  rw [h]
  rfl

/-- Witness for C4: a concrete non-JSON string. -/
theorem validate_invalid_json_witness :
    Json.parse "not json" = none ∧
    validate (.text "not json") none =
      { valid := false
        version := .unknown
        errors := [{ code := .INVALID_JSON
                     field := "$"
                     message := ErrorMessages .INVALID_JSON
                     severity := .error }]
        warnings := []
        normalized := none } :=
  ⟨rfl, validate_invalid_json "not json" none rfl⟩

/-- Every normal pipeline completion satisfies the validity invariant. -/
theorem runPipeline_valid_iff (input : RawInput)
    (options : Option ValidationOptions) (r : ValidationResult)
    (h : runPipeline input options = .ok r) :
    (r.valid = true ↔ r.errors = []) := by
  unfold runPipeline at h
  dsimp only at h
  split at h
  · rename_i hlen
    injection h with h
    subst h
    dsimp only
    constructor
    · intro hf
      exact absurd hf (by simp)
    · intro hnil
      rw [hnil] at hlen
      simp at hlen
  · split at h
    · exact absurd h (by simp)
    · split at h
      · injection h with h
        subst h
        simp
      · rename_i normalized heq
        rcases hc : collectIssues _ _ normalized with ⟨errors, warnings⟩
        rw [hc] at h
        dsimp only at h
        injection h with h
        subst h
        dsimp only
        constructor
        · intro hv
          simpa using hv
        · intro hnil
          simp [hnil]

/-- C2: for every input and options value, the returned result satisfies
`valid === (errors.length === 0)` — on the terminal structural path, the
failed-normalization path, the full rule pipeline (with or without strict
promotion), and the catch-all branch alike. -/
theorem validate_valid_iff_no_errors (input : RawInput)
    (options : Option ValidationOptions) :
    ((validate input options).valid = true ↔ (validate input options).errors = []) := by
  unfold validate
  cases hp : runPipeline input options with
  | ok r =>
    have := runPipeline_valid_iff input options r hp
    simpa [safetyNet] using this
  | error e =>
    simp [safetyNet, catchAllResult]

/-- C3: strict mode is a pure relabeling.  For every input, the strict
run's errors are exactly the non-strict errors followed by the non-strict
warnings cloned with severity forced to `error`; the strict run's
warnings are empty; and consequently the strict error count is the
non-strict error count plus the non-strict warning count. -/
theorem validate_strict_relabeling (input : RawInput) :
    (validate input (some { strict := some true })).errors =
      (validate input (some { strict := some false })).errors ++
        ((validate input (some { strict := some false })).warnings.map promoteWarning) ∧
    (validate input (some { strict := some true })).warnings = [] ∧
    (validate input (some { strict := some true })).errors.length =
      (validate input (some { strict := some false })).errors.length +
        (validate input (some { strict := some false })).warnings.length := by
  unfold validate runPipeline
  dsimp only
  by_cases h : (validateStructure input).issues.length > 0
  · simp [h, safetyNet]
  · simp only [h, if_false]
    cases hpp : (validateStructure input).parsed with
    | none => simp [safetyNet, catchAllResult]
    | some parsed =>
      cases hn : normalizeConfig parsed with
      | none => simp [hn, safetyNet]
      | some normalized =>
        rcases hc : collectIssues parsed (validateStructure input).format normalized
          with ⟨errors, warnings⟩
        simp [hn, hc, safetyNet]

/-! ### Character-level helper lemmas for the EIP-55 proofs -/

/-- `Char.ofNat` round-trips on valid code points. -/
theorem toNat_ofNat_valid (n : Nat) (h : n.isValidChar) :
    (Char.ofNat n).toNat = n := by
  rw [Char.ofNat, dif_pos h]
  rfl

/-- `jsToLower` fixes characters outside `A`–`Z`. -/
theorem jsToLower_fix {c : Char} (h : ¬('A' ≤ c ∧ c ≤ 'Z')) : jsToLower c = c := by
  unfold jsToLower
  rw [if_neg h]

/-- A decimal digit is not an uppercase letter. -/
theorem digit_not_upper {c : Char} (h : JsonParse.isDigit c = true) :
    ¬('A' ≤ c ∧ c ≤ 'Z') := by
  unfold JsonParse.isDigit at h
  rw [Bool.and_eq_true, decide_eq_true_eq, decide_eq_true_eq] at h
  rintro ⟨h1, _⟩
  have hb : c.toNat ≤ 57 := h.2
  have ha : (65 : Nat) ≤ c.toNat := h1
  omega

/-- A lowercase hex letter is not an uppercase letter. -/
theorem lcLetter_not_upper {c : Char} (h : ('a' ≤ c && c ≤ 'f') = true) :
    ¬('A' ≤ c ∧ c ≤ 'Z') := by
  rw [Bool.and_eq_true, decide_eq_true_eq, decide_eq_true_eq] at h
  rintro ⟨_, h2⟩
  have ha : (97 : Nat) ≤ c.toNat := h.1
  have hb : c.toNat ≤ 90 := h2
  omega

/-- A decimal digit is not a lowercase hex letter. -/
theorem digit_not_lcLetter {c : Char} (h : JsonParse.isDigit c = true) :
    ('a' ≤ c && c ≤ 'f') = false := by
  unfold JsonParse.isDigit at h
  rw [Bool.and_eq_true, decide_eq_true_eq, decide_eq_true_eq] at h
  rw [Bool.and_eq_false_iff]
  left
  rw [decide_eq_false_iff_not]
  intro ha
  have h1 : (97 : Nat) ≤ c.toNat := ha
  have h2 : c.toNat ≤ 57 := h.2
  omega

/-- An uppercase hex letter is not a lowercase hex letter. -/
theorem ucLetter_not_lcLetter {c : Char} (h : ('A' ≤ c && c ≤ 'F') = true) :
    ('a' ≤ c && c ≤ 'f') = false := by
  rw [Bool.and_eq_true, decide_eq_true_eq, decide_eq_true_eq] at h
  rw [Bool.and_eq_false_iff]
  left
  rw [decide_eq_false_iff_not]
  intro ha
  have h1 : (97 : Nat) ≤ c.toNat := ha
  have h2 : c.toNat ≤ 70 := h.2
  omega

/-- Mapping a pointwise-identical function over a list is the identity. -/
theorem map_eq_self_of_mem {f : Char → Char} :
    ∀ (l : List Char), (∀ c ∈ l, f c = c) → l.map f = l := by
  intro l h
  induction l with
  | nil => rfl
  | cons c cs ih =>
    simp only [List.map_cons, List.cons.injEq]
    exact ⟨h c (List.mem_cons_self c cs), ih fun d hd => h d (List.mem_cons_of_mem c hd)⟩

/-- The shape of a string passing the EVM address regex. -/
theorem evmRegex_destruct (a : String) (h : evmAddressRegexTest a = true) :
    ∃ rest, a.data = '0' :: 'x' :: rest ∧ rest.length = 40 ∧
      rest.all isHexChar = true := by
  unfold evmAddressRegexTest at h
  rcases hd : a.data with _ | ⟨c0, _ | ⟨c1, rest⟩⟩
  · rw [hd] at h
    exact absurd h (by simp)
  · rw [hd] at h
    exact absurd h (by simp)
  · rw [hd] at h
    simp only [Bool.and_eq_true, beq_iff_eq] at h
    obtain ⟨⟨⟨h0, h1⟩, hlen⟩, hhex⟩ := h
    subst h0
    subst h1
    exact ⟨rest, rfl, by simpa using hlen, hhex⟩

/-- A decimal digit is not an uppercase hex letter. -/
theorem digit_not_ucLetter {c : Char} (h : JsonParse.isDigit c = true) :
    ('A' ≤ c && c ≤ 'F') = false := by
  unfold JsonParse.isDigit at h
  rw [Bool.and_eq_true, decide_eq_true_eq, decide_eq_true_eq] at h
  rw [Bool.and_eq_false_iff]
  left
  rw [decide_eq_false_iff_not]
  intro ha
  have h1 : (65 : Nat) ≤ c.toNat := ha
  have h2 : c.toNat ≤ 57 := h.2
  omega

/-- C6: for every string of the form `0x` + 40 hex characters —
(1) if the hex portion is entirely lowercase hex with at least one
letter, `validateEvmAddress` returns exactly one `NO_EVM_CHECKSUM`
warning (severity `warning`, so by the validity invariant it cannot by
itself force `valid = false`) whose fix carries the checksummed form;
(2) if it is entirely uppercase hex with at least one letter, no issues;
(3) if it is entirely numeric, no issues. -/
theorem validateEvmAddress_casing (a f : String)
    (hfmt : evmAddressRegexTest a = true) :
    (((a.data.drop 2).all (fun c => JsonParse.isDigit c || ('a' ≤ c && c ≤ 'f')) = true ∧
      (a.data.drop 2).any (fun c => 'a' ≤ c && c ≤ 'f') = true) →
      validateEvmAddress a f =
        [{ code := .NO_EVM_CHECKSUM
           field := f
           message := "EVM address is all-lowercase with no checksum protection"
           severity := .warning
           fix := some ("Use checksummed address to detect typos: " ++ toChecksumAddress a) }]) ∧
    (((a.data.drop 2).all (fun c => JsonParse.isDigit c || ('A' ≤ c && c ≤ 'F')) = true ∧
      (a.data.drop 2).any (fun c => 'A' ≤ c && c ≤ 'F') = true) →
      validateEvmAddress a f = []) ∧
    ((a.data.drop 2).all JsonParse.isDigit = true →
      validateEvmAddress a f = []) := by
  obtain ⟨rest, hd, hlen, hhex⟩ := evmRegex_destruct a hfmt
  have hdrop : a.data.drop 2 = rest := by
    rw [hd]
    rfl
  refine ⟨?_, ?_, ?_⟩
  · rintro ⟨hall, hany⟩
    rw [hdrop] at hall hany
    have hfix : ∀ c ∈ rest, jsToLower c = c := by
      intro c hc
      have hc' := List.all_eq_true.mp hall c hc
      rw [Bool.or_eq_true] at hc'
      rcases hc' with hdig | haf
      · exact jsToLower_fix (digit_not_upper hdig)
      · exact jsToLower_fix (lcLetter_not_upper haf)
    have ha_eq : a = ⟨'0' :: 'x' :: rest⟩ := by rw [← hd]
    have hlow : strToLower a = a := by
      conv_lhs => rw [ha_eq]
      conv_rhs => rw [ha_eq]
      unfold strToLower
      simp only [List.map_cons]
      rw [map_eq_self_of_mem rest hfix]
      rfl
    have hbeq : (a == strToLower a) = true := by
      rw [hlow]
      exact beq_self_eq_true a
    unfold validateEvmAddress
    rw [hfmt]
    dsimp only
    rw [hdrop, hbeq, hany]
    simp
  · rintro ⟨hall, hany⟩
    rw [hdrop] at hall hany
    have hanyLC : rest.any (fun c => 'a' ≤ c && c ≤ 'f') = false := by
      rw [List.any_eq_false]
      intro c hc
      have hc' := List.all_eq_true.mp hall c hc
      rw [Bool.or_eq_true] at hc'
      rcases hc' with hdig | hAF
      · simp [digit_not_lcLetter hdig]
      · simp [ucLetter_not_lcLetter hAF]
    unfold validateEvmAddress
    rw [hfmt]
    dsimp only
    rw [hdrop, hanyLC, hlen, hall, hany]
    simp
  · intro hall
    rw [hdrop] at hall
    have hanyLC : rest.any (fun c => 'a' ≤ c && c ≤ 'f') = false := by
      rw [List.any_eq_false]
      intro c hc
      simp [digit_not_lcLetter (List.all_eq_true.mp hall c hc)]
    have hanyUC : rest.any (fun c => 'A' ≤ c && c ≤ 'F') = false := by
      rw [List.any_eq_false]
      intro c hc
      simp [digit_not_ucLetter (List.all_eq_true.mp hall c hc)]
    unfold validateEvmAddress
    rw [hfmt]
    dsimp only
    rw [hdrop, hanyLC, hanyUC, hlen, hall]
    simp

/-- Witness for C6: concrete addresses in each casing regime — an
all-lowercase address yields exactly the no-checksum warning with the
checksummed fix, all-uppercase and all-digit addresses yield no issues. -/
theorem validateEvmAddress_casing_witness :
    evmAddressRegexTest "0xabcdef0123456789abcdef0123456789abcdef01" = true ∧
    validateEvmAddress "0xabcdef0123456789abcdef0123456789abcdef01" "payTo" =
      [{ code := .NO_EVM_CHECKSUM
         field := "payTo"
         message := "EVM address is all-lowercase with no checksum protection"
         severity := .warning
         fix := some ("Use checksummed address to detect typos: " ++
           toChecksumAddress "0xabcdef0123456789abcdef0123456789abcdef01") }] ∧
    validateEvmAddress "0xABCDEF0123456789ABCDEF0123456789ABCDEF01" "payTo" = [] ∧
    validateEvmAddress "0x1234567890123456789012345678901234567890" "payTo" = [] :=
  ⟨rfl,
   (validateEvmAddress_casing "0xabcdef0123456789abcdef0123456789abcdef01"
     "payTo" rfl).1 ⟨rfl, rfl⟩,
   (validateEvmAddress_casing "0xABCDEF0123456789ABCDEF0123456789ABCDEF01"
     "payTo" rfl).2.1 ⟨rfl, rfl⟩,
   (validateEvmAddress_casing "0x1234567890123456789012345678901234567890"
     "payTo" rfl).2.2 rfl⟩

/-- Each byte renders as two hex characters. -/
theorem byteHex_length (b : Nat) : (Keccak.byteHex b).length = 2 := rfl

/-- Each lane serializes to eight bytes. -/
theorem laneBytes_length (x : Nat) : (Keccak.laneBytes x).length = 8 := by
  simp [Keccak.laneBytes]

/-- Flat-mapping a constant-length function multiplies lengths. -/
theorem length_flatMap_const {α β : Type} (f : α → List β) (k : Nat)
    (hf : ∀ a, (f a).length = k) :
    ∀ l : List α, (l.flatMap f).length = k * l.length := by
  intro l
  induction l with
  | nil => simp
  | cons a as ih =>
    simp only [List.flatMap_cons, List.length_append, ih, hf a, List.length_cons]
    ring

/-- The Keccak-256 digest is 32 bytes. -/
theorem keccak256Bytes_length (msg : List Nat) :
    (Keccak.keccak256Bytes msg).length = 32 := by
  unfold Keccak.keccak256Bytes
  rw [length_flatMap_const _ 8 (fun i => laneBytes_length _) (List.range 4)]
  rfl

/-- The hex-rendered Keccak-256 digest is 64 characters. -/
theorem keccak256_length (s : String) : (keccak256 s).data.length = 64 := by
  show ((Keccak.keccak256Bytes (s.data.map Char.toNat)).flatMap Keccak.byteHex).length = 64
  rw [length_flatMap_const _ 2 byteHex_length, keccak256Bytes_length]

/-- Uppercasing then lowercasing fixes a lowercase hex letter. -/
theorem jsToLower_jsToUpper_af {c : Char} (h1 : 'a' ≤ c) (h2 : c ≤ 'f') :
    jsToLower (jsToUpper c) = c := by
  have hc1 : (97 : Nat) ≤ c.toNat := h1
  have hc2 : c.toNat ≤ 102 := h2
  unfold jsToUpper
  rw [if_pos ⟨h1, Char.le_trans h2 (by decide)⟩]
  have hv : (c.toNat - 32).isValidChar := Or.inl (by omega)
  have ht : (Char.ofNat (c.toNat - 32)).toNat = c.toNat - 32 := toNat_ofNat_valid _ hv
  unfold jsToLower
  rw [if_pos ?_]
  · rw [ht]
    have harith : c.toNat - 32 + 32 = c.toNat := by omega
    rw [harith, Char.ofNat_toNat]
  · constructor
    · show (65 : Nat) ≤ (Char.ofNat (c.toNat - 32)).toNat
      rw [ht]
      omega
    · show (Char.ofNat (c.toNat - 32)).toNat ≤ 90
      rw [ht]
      omega

/-- Lowercasing the checksum-cased hex recovers the lowercase hex, as long
as the hash covers every position. -/
theorem checksumZip_map_jsToLower :
    ∀ (cs hs : List Char),
      (∀ c ∈ cs, (JsonParse.isDigit c || ('a' ≤ c && c ≤ 'f')) = true) →
      cs.length ≤ hs.length →
      (checksumZip cs hs).map jsToLower = cs := by
  intro cs
  induction cs with
  | nil => intro hs _ _; rfl
  | cons c cs ih =>
    intro hs hlc hlen
    cases hs with
    | nil => simp at hlen
    | cons h hs =>
      unfold checksumZip
      simp only [List.map_cons, List.cons.injEq]
      constructor
      · have hc := hlc c (List.mem_cons_self c cs)
        rw [Bool.or_eq_true] at hc
        by_cases haf : 'a' ≤ c ∧ c ≤ 'f'
        · rw [if_pos haf]
          by_cases hnib : hashNibbleGe8 h = true
          · rw [if_pos hnib]
            exact jsToLower_jsToUpper_af haf.1 haf.2
          · rw [if_neg hnib]
            exact jsToLower_fix (lcLetter_not_upper (by
              rw [Bool.and_eq_true]
              exact ⟨decide_eq_true haf.1, decide_eq_true haf.2⟩))
        · rw [if_neg haf]
          rcases hc with hdig | haf'
          · exact jsToLower_fix (digit_not_upper hdig)
          · rw [Bool.and_eq_true, decide_eq_true_eq, decide_eq_true_eq] at haf'
            exact absurd haf' haf
      · exact ih hs (fun d hd => hlc d (List.mem_cons_of_mem c hd))
          (Nat.le_of_succ_le_succ hlen)

/-- Lowercasing a hex character yields a lowercase hex character. -/
theorem jsToLower_hex {c : Char} (h : isHexChar c = true) :
    (JsonParse.isDigit (jsToLower c) ||
      ('a' ≤ jsToLower c && jsToLower c ≤ 'f')) = true := by
  unfold isHexChar at h
  rw [Bool.or_eq_true, Bool.or_eq_true] at h
  rcases h with (hdig | haf) | hAF
  · rw [jsToLower_fix (digit_not_upper hdig), Bool.or_eq_true]
    exact Or.inl hdig
  · rw [jsToLower_fix (lcLetter_not_upper haf), Bool.or_eq_true]
    exact Or.inr haf
  · rw [Bool.and_eq_true, decide_eq_true_eq, decide_eq_true_eq] at hAF
    have h1 : (65 : Nat) ≤ c.toNat := hAF.1
    have h2 : c.toNat ≤ 70 := hAF.2
    unfold jsToLower
    rw [if_pos ⟨hAF.1, Char.le_trans hAF.2 (by decide)⟩]
    have hv : (c.toNat + 32).isValidChar := Or.inl (by omega)
    have ht : (Char.ofNat (c.toNat + 32)).toNat = c.toNat + 32 :=
      toNat_ofNat_valid _ hv
    rw [Bool.or_eq_true]
    right
    rw [Bool.and_eq_true]
    refine ⟨decide_eq_true ?_, decide_eq_true ?_⟩
    · show (97 : Nat) ≤ (Char.ofNat (c.toNat + 32)).toNat
      rw [ht]
      omega
    · show (Char.ofNat (c.toNat + 32)).toNat ≤ 102
      rw [ht]
      omega

/-- The character data computed by `toChecksumAddress` on a `0x`-prefixed
string. -/
theorem toChecksumAddress_data (a : String) (rest : List Char)
    (hd : a.data = '0' :: 'x' :: rest) :
    (toChecksumAddress a).data =
      '0' :: 'x' :: checksumZip (rest.map jsToLower)
        ((keccak256 ⟨rest.map jsToLower⟩).data) := by
  unfold toChecksumAddress
  rw [hd]
  rfl

/-- C9: `toChecksumAddress` changes only letter casing, never the value:
for every `0x` + 40-hex-character string, the lowercase of the
checksummed form equals the lowercase of the input (digit positions are
copied unchanged, letter positions differ at most in case). -/
theorem toChecksumAddress_preserves_value (a : String)
    (hfmt : evmAddressRegexTest a = true) :
    strToLower (toChecksumAddress a) = strToLower a := by
  obtain ⟨rest, hd, hlen, hhex⟩ := evmRegex_destruct a hfmt
  have hlc : ∀ c ∈ rest.map jsToLower,
      (JsonParse.isDigit c || ('a' ≤ c && c ≤ 'f')) = true := by
    intro c hc
    rw [List.mem_map] at hc
    obtain ⟨d, hdm, rfl⟩ := hc
    exact jsToLower_hex (List.all_eq_true.mp hhex d hdm)
  have hlen2 : (rest.map jsToLower).length ≤
      (keccak256 ⟨rest.map jsToLower⟩).data.length := by
    rw [List.length_map, hlen, keccak256_length]
    omega
  unfold strToLower
  rw [toChecksumAddress_data a rest hd, hd]
  simp only [List.map_cons]
  rw [checksumZip_map_jsToLower _ _ hlc hlen2]

/-- Witness for C9: a concrete valid address. -/
theorem toChecksumAddress_preserves_value_witness :
    evmAddressRegexTest "0x5aAeb6053F3E94C9b9A09f33669435E7Ef1BeAed" = true ∧
    strToLower (toChecksumAddress "0x5aAeb6053F3E94C9b9A09f33669435E7Ef1BeAed") =
      strToLower "0x5aAeb6053F3E94C9b9A09f33669435E7Ef1BeAed" :=
  ⟨rfl, toChecksumAddress_preserves_value
    "0x5aAeb6053F3E94C9b9A09f33669435E7Ef1BeAed" rfl⟩

/-- C7: checksum computation is idempotent — checksumming an
already-checksummed `0x` + 40-hex-character address returns the same
string. -/
theorem toChecksumAddress_idempotent (a : String)
    (hfmt : evmAddressRegexTest a = true) :
    toChecksumAddress (toChecksumAddress a) = toChecksumAddress a := by
  obtain ⟨rest, hd, hlen, hhex⟩ := evmRegex_destruct a hfmt
  have hlc : ∀ c ∈ rest.map jsToLower,
      (JsonParse.isDigit c || ('a' ≤ c && c ≤ 'f')) = true := by
    intro c hc
    rw [List.mem_map] at hc
    obtain ⟨d, hdm, rfl⟩ := hc
    exact jsToLower_hex (List.all_eq_true.mp hhex d hdm)
  have hlen2 : (rest.map jsToLower).length ≤
      (keccak256 ⟨rest.map jsToLower⟩).data.length := by
    rw [List.length_map, hlen, keccak256_length]
    omega
  have hz := toChecksumAddress_data a rest hd
  have hmap := checksumZip_map_jsToLower (rest.map jsToLower)
    ((keccak256 ⟨rest.map jsToLower⟩).data) hlc hlen2
  have h2 := toChecksumAddress_data (toChecksumAddress a)
    (checksumZip (rest.map jsToLower) ((keccak256 ⟨rest.map jsToLower⟩).data)) hz
  rw [hmap] at h2
  calc toChecksumAddress (toChecksumAddress a)
      = ⟨(toChecksumAddress (toChecksumAddress a)).data⟩ := rfl
    _ = ⟨(toChecksumAddress a).data⟩ := by rw [h2, hz]
    _ = toChecksumAddress a := rfl

/-- Witness for C7: a concrete valid address. -/
theorem toChecksumAddress_idempotent_witness :
    evmAddressRegexTest "0xfb6916095ca1df60bb79ce92ce3ea74c37c5d359" = true ∧
    toChecksumAddress (toChecksumAddress "0xfb6916095ca1df60bb79ce92ce3ea74c37c5d359") =
      toChecksumAddress "0xfb6916095ca1df60bb79ce92ce3ea74c37c5d359" :=
  ⟨rfl, toChecksumAddress_idempotent
    "0xfb6916095ca1df60bb79ce92ce3ea74c37c5d359" rfl⟩
